import Mathlib

/-
Verification of the schedule-representation-and-translation core of the
sheglow-concierge repository: the schedule validator and trigger-expression
compiler of src/backend/src/routines_handler.py, and the calendar exporter of
src/backend/src/ics_handler.py.

Strings are modelled as lists of characters (`Str`), and the dynamically typed
JSON-like values the handlers receive as the inductive type `Val`.  Dictionary
values are association lists with distinct keys (the JSON parser collapses
duplicate keys, so records reaching these functions have unique keys).
-/

/-- Text as the Python code sees it: a sequence of characters. -/
abbrev Str := List Char

/-- A dynamically typed value, as produced by parsing a JSON body: `vnone` is
Python's `None` (and also stands for an absent key when `.get` is used),
`vother` covers remaining scalars (numbers, booleans), carrying only their
truthiness, which is all the validated code paths observe of them. -/
inductive Val where
  | vnone : Val
  | vstr (s : Str) : Val
  | vlist (l : List Val) : Val
  | vdict (d : List (Str × Val)) : Val
  | vother (truthy : Bool) : Val

/-- First-match association-list lookup (keys are unique by construction). -/
def dictLookup : List (Str × Val) → Str → Option Val
  | [], _ => none
  | (k, v) :: rest, key => if k = key then some v else dictLookup rest key

/-- Python `d.get(k)`: the value, or `None` when the key is absent. -/
def pyGet (d : List (Str × Val)) (k : Str) : Val :=
  match dictLookup d k with
  | some v => v
  | none => Val.vnone

/-- Python `d.get(k, default)`: the default applies only when the key is
absent, not when it is present with value `None`. -/
def pyGetD (d : List (Str × Val)) (k : Str) (dflt : Val) : Val :=
  match dictLookup d k with
  | some v => v
  | none => dflt

/-- Python truthiness of a value. -/
def truthy : Val → Bool
  | .vnone => false
  | .vstr s => !s.isEmpty
  | .vlist l => !l.isEmpty
  | .vdict d => !d.isEmpty
  | .vother b => b

/-- Is the value Python's `None`? -/
def isVNone : Val → Bool
  | .vnone => true
  | _ => false

/-- The ASCII whitespace characters Python's `str.strip()` removes. -/
def pySpace (c : Char) : Bool :=
  c = ' ' || c = '\t' || c = '\n' || c = '\r' || c = Char.ofNat 11 || c = Char.ofNat 12

/-- Python `s.strip()`. -/
def pyStrip (s : Str) : Str :=
  ((s.dropWhile pySpace).reverse.dropWhile pySpace).reverse

/-- Decimal rendering of a nonnegative integer, as Python's `str(n)`. -/
def natStr (n : Nat) : Str := (Nat.repr n).data

/-- Each list element must be a string, as Python's `str.join` demands;
a non-string element is a `TypeError`. -/
def strListOfVals : List Val → Option (List Str)
  | [] => some []
  | .vstr s :: rest => (strListOfVals rest).map (s :: ·)
  | _ :: _ => none

/-- Python `sep.join(items)` over a list value: raises (`.error`) when an
element is not a string. -/
def pyJoinVals (sep : Str) (l : List Val) : Except Unit Str :=
  match strListOfVals l with
  | some ss => Except.ok (List.intercalate sep ss)
  | none => Except.error ()

/-- Python `sep.join(v)` over an arbitrary value: a string is iterated
character by character; non-iterables raise. -/
def pyJoin (sep : Str) (v : Val) : Except Unit Str :=
  match v with
  | .vlist l => pyJoinVals sep l
  | .vstr s => Except.ok (List.intercalate sep (s.map (fun c => [c])))
  | _ => Except.error ()

/-- The regex `^([0-1]?[0-9]|2[0-3]):([0-5][0-9])$` applied to a whole string:
hour of one digit, or two digits starting 0/1, or `2` followed by 0–3; minute
of exactly two digits, the first 0–5. -/
def parseTimeCore : Str → Option (Nat × Nat)
  | [h, ':', m1, m2] =>
    if h.isDigit ∧ ('0' ≤ m1 ∧ m1 ≤ '5') ∧ m2.isDigit then
      some ((h.toNat - 48), 10 * (m1.toNat - 48) + (m2.toNat - 48))
    else none
  | [h1, h2, ':', m1, m2] =>
    if (((h1 = '0' ∨ h1 = '1') ∧ h2.isDigit) ∨ (h1 = '2' ∧ '0' ≤ h2 ∧ h2 ≤ '3'))
        ∧ ('0' ≤ m1 ∧ m1 ≤ '5') ∧ m2.isDigit then
      some (10 * (h1.toNat - 48) + (h2.toNat - 48), 10 * (m1.toNat - 48) + (m2.toNat - 48))
    else none
  | _ => none

/-- Python's `re.match` with a `$` anchor also accepts one trailing newline. -/
def parseTime (s : Str) : Option (Nat × Nat) :=
  if s.getLast? = some '\n' then parseTimeCore s.dropLast else parseTimeCore s

namespace routines_handler

/-- Constant `VALID_WEEKDAYS` of routines_handler.py. -/
def VALID_WEEKDAYS : List Str :=
  ["MON".data, "TUE".data, "WED".data, "THU".data, "FRI".data, "SAT".data, "SUN".data]

/-- Constant `MAX_TITLE_LENGTH`. -/
def MAX_TITLE_LENGTH : Nat := 100

/-- Constant `MAX_STEPS`. -/
def MAX_STEPS : Nat := 20

/-- Constant `MAX_STEP_LENGTH`. -/
def MAX_STEP_LENGTH : Nat := 200

/-- `validate_time_format` of routines_handler.py: non-strings and strings not
matching the `HH:MM` pattern raise `ValueError` (the `.error` message). -/
def validate_time_format (v : Val) : Except Str (Nat × Nat) :=
  match v with
  | .vstr s =>
    match parseTime s with
    | some r => Except.ok r
    | none => Except.error "Time must be in HH:MM format (00:00-23:59)".data
  | _ => Except.error "Time must be a string".data

/-- `d not in VALID_WEEKDAYS` test of the weekly-days check; a non-string
value never equals a weekday string. -/
def isValidDay : Val → Bool
  | .vstr s => VALID_WEEKDAYS.contains s
  | _ => false

def titleReqErr : Str := "title is required and must be a non-empty string".data

def titleLenErr : Str :=
  "title must be ".data ++ natStr MAX_TITLE_LENGTH ++ " characters or less".data

def stepsArrayErr : Str := "steps must be an array".data

def stepsMaxErr : Str := "Maximum ".data ++ natStr MAX_STEPS ++ " steps allowed".data

def stepStrErr (i : Nat) : Str := "Step ".data ++ natStr i ++ " must be a string".data

def stepEmptyErr (i : Nat) : Str := "Step ".data ++ natStr i ++ " cannot be empty".data

def stepLenErr (i : Nat) : Str :=
  "Step ".data ++ natStr i ++ " must be ".data ++ natStr MAX_STEP_LENGTH
    ++ " characters or less".data

def tzErr : Str := "timezone must be a non-empty string".data

def typeErrMsg : Str := "when.type must be 'daily', 'weekly', or 'cron'".data

def daysErrMsg : Str := "when.days must be a non-empty array for weekly schedules".data

def invalidDaysErr (joined : Str) : Str :=
  "Invalid days: ".data ++ joined ++ ". Valid options: ".data
    ++ List.intercalate ", ".data VALID_WEEKDAYS

def exprErrMsg : Str := "when.expression is required for cron schedules".data

/-- The default schedule `{"type": "daily", "time": "07:00"}`. -/
def defaultWhen : Val :=
  Val.vdict [("type".data, Val.vstr "daily".data), ("time".data, Val.vstr "07:00".data)]

/-- Title validation (routines_handler.py lines 62-71): the entries and error
messages this block contributes to `cleaned_data` and `errors`. -/
def titlePhase (data : List (Str × Val)) (is_update : Bool) : List (Str × Val) × List Str :=
  let title := pyGet data "title".data
  if !is_update || !(isVNone title) then
    match title with
    | .vstr s =>
      if s = [] ∨ (pyStrip s).length = 0 then
        (if !is_update then ([], [titleReqErr]) else ([], []))
      else if (pyStrip s).length > MAX_TITLE_LENGTH then ([], [titleLenErr])
      else ([("title".data, Val.vstr (pyStrip s))], [])
    | _ => (if !is_update then ([], [titleReqErr]) else ([], []))
  else ([], [])

/-- The per-step loop of steps validation (lines 84-93): cleaned steps kept in
order, one error per offending step; `i` is the 1-based display index. -/
def cleanSteps : List Val → Nat → List Str × List Str
  | [], _ => ([], [])
  | s :: rest, i =>
    let r := cleanSteps rest (i + 1)
    match s with
    | .vstr str =>
      if (pyStrip str).length = 0 then (r.1, stepEmptyErr i :: r.2)
      else if (pyStrip str).length > MAX_STEP_LENGTH then (r.1, stepLenErr i :: r.2)
      else (pyStrip str :: r.1, r.2)
    | _ => (r.1, stepStrErr i :: r.2)

/-- Steps validation (lines 73-96).  The cleaned steps are stored only when
the whole accumulated error list — `globalErrs` from the earlier blocks plus
this block's own errors — is empty (source line 95). -/
def stepsPhase (data : List (Str × Val)) (is_update : Bool) (globalErrs : List Str) :
    List (Str × Val) × List Str :=
  let steps := pyGet data "steps".data
  if !is_update || !(isVNone steps) then
    match steps with
    | .vnone => (if !is_update then ([("steps".data, Val.vlist [])], []) else ([], []))
    | .vlist l =>
      if l.length > MAX_STEPS then ([], [stepsMaxErr])
      else
        let r := cleanSteps l 1
        if globalErrs ++ r.2 = [] then
          ([("steps".data, Val.vlist (r.1.map Val.vstr))], r.2)
        else ([], r.2)
    | _ => ([], [stepsArrayErr])
  else ([], [])

/-- Timezone validation (lines 98-104). -/
def tzPhase (data : List (Str × Val)) : List (Str × Val) × List Str :=
  match pyGet data "timezone".data with
  | .vnone => ([], [])
  | .vstr s =>
    if (pyStrip s).length = 0 then ([], [tzErr])
    else ([("timezone".data, Val.vstr (pyStrip s))], [])
  | _ => ([], [tzErr])

/-- The daily/weekly time check (lines 121-127): entry for `cleaned_when` and
its error messages. -/
def timeCheck (ty : Str) (w : List (Str × Val)) : List (Str × Val) × List Str :=
  if ty = "daily".data ∨ ty = "weekly".data then
    match validate_time_format (pyGetD w "time".data (Val.vstr "07:00".data)) with
    | Except.ok _ => ([("time".data, pyGetD w "time".data (Val.vstr "07:00".data))], [])
    | Except.error m => ([], ["when.time: ".data ++ m])
  else ([], [])

/-- The weekly days check (lines 129-138).  Building the error message for
invalid day codes joins them with `', '.join`, which raises a `TypeError`
when an invalid code is not a string. -/
def daysCheck (ty : Str) (w : List (Str × Val)) :
    Except Unit (List (Str × Val) × List Str) :=
  if ty = "weekly".data then
    match pyGetD w "days".data (Val.vlist [Val.vstr "MON".data]) with
    | .vlist [] => Except.ok ([], [daysErrMsg])
    | .vlist dl =>
        match dl.filter (fun d => !(isValidDay d)) with
        | [] => Except.ok ([("days".data, Val.vlist dl)], [])
        | invalid =>
          match pyJoinVals ", ".data invalid with
          | Except.ok j => Except.ok ([], [invalidDaysErr j])
          | Except.error u => Except.error u
    | _ => Except.ok ([], [daysErrMsg])
  else Except.ok ([], [])

/-- The cron expression check (lines 140-145): any value that is not a
non-empty string is an error; the stored expression is stripped. -/
def exprCheck (ty : Str) (w : List (Str × Val)) : List (Str × Val) × List Str :=
  if ty = "cron".data then
    match pyGet w "expression".data with
    | .vstr e =>
      if e = [] then ([], [exprErrMsg])
      else ([("expression".data, Val.vstr (pyStrip e))], [])
    | _ => ([], [exprErrMsg])
  else ([], [])

/-- Schedule (`when`) validation (lines 106-148).  `globalErrs` is the error
list accumulated by the earlier blocks: `cleaned_when` is stored only when the
whole list is still empty (source line 147). -/
def whenPhase (data : List (Str × Val)) (is_update : Bool) (globalErrs : List Str) :
    Except Unit (List (Str × Val) × List Str) :=
  let whenv := pyGet data "when".data
  if !is_update || !(isVNone whenv) then
    match whenv with
    | .vnone =>
      if !is_update then Except.ok ([("when".data, defaultWhen)], []) else Except.ok ([], [])
    | .vdict w =>
      match pyGet w "type".data with
      | .vstr ty =>
        if ty = "daily".data ∨ ty = "weekly".data ∨ ty = "cron".data then
          let t := timeCheck ty w
          match daysCheck ty w with
          | Except.error u => Except.error u
          | Except.ok d =>
            let e := exprCheck ty w
            let cw := ("type".data, Val.vstr ty) :: (t.1 ++ d.1 ++ e.1)
            let ownErrs := t.2 ++ d.2 ++ e.2
            if globalErrs ++ ownErrs = [] then
              Except.ok ([("when".data, Val.vdict cw)], ownErrs)
            else Except.ok ([], ownErrs)
        else Except.ok ([], [typeErrMsg])
      | _ => Except.ok ([], [typeErrMsg])
    | _ => Except.ok ([], ["when must be an object".data])
  else Except.ok ([], [])

/-- `validate_routine_data` of routines_handler.py (lines 57-150): the four
validation blocks run in order, each contributing entries to `cleaned_data`
(insertion order: title, steps, timezone, when) and messages to `errors`.
The function raises (`.error`) exactly when the weekly-days error message
cannot be built. -/
def validate_routine_data (data : List (Str × Val)) (is_update : Bool) :
    Except Unit (List (Str × Val) × List Str) :=
  let t := titlePhase data is_update
  let s := stepsPhase data is_update t.2
  let z := tzPhase data
  match whenPhase data is_update (t.2 ++ s.2 ++ z.2) with
  | Except.error u => Except.error u
  | Except.ok w => Except.ok (t.1 ++ s.1 ++ z.1 ++ w.1, t.2 ++ s.2 ++ z.2 ++ w.2)

/-- The schedule-expression derivation of `create_schedule` (lines 157-173):
from the routine's `when` value to the `ScheduleExpression` handed to the
external scheduler, or a raised error.  A raise happens when the time does not
parse, when joining a weekly days value fails, when `when` is not a
dictionary (`.get` on it would raise), or — the explicit
`ValueError('Unsupported or invalid schedule configuration')` — when the
derived expression is falsy. -/
def create_schedule_expr (whenv : Val) : Except Unit Val :=
  match whenv with
  | .vdict w =>
    let se : Except Unit Val :=
      match pyGet w "type".data with
      | .vstr ty =>
        if ty = "daily".data then
          match validate_time_format (pyGetD w "time".data (Val.vstr "07:00".data)) with
          | Except.ok (hh, mm) =>
            Except.ok (Val.vstr
              ("cron(".data ++ natStr mm ++ " ".data ++ natStr hh ++ " * * ? *)".data))
          | Except.error _ => Except.error ()
        else if ty = "weekly".data then
          match validate_time_format (pyGetD w "time".data (Val.vstr "07:00".data)) with
          | Except.ok (hh, mm) =>
            match pyJoin ",".data (pyGetD w "days".data (Val.vlist [Val.vstr "MON".data])) with
            | Except.ok ds =>
              Except.ok (Val.vstr
                ("cron(".data ++ natStr mm ++ " ".data ++ natStr hh ++ " ? * ".data
                  ++ ds ++ " *)".data))
            | Except.error u => Except.error u
          | Except.error _ => Except.error ()
        else if ty = "cron".data then Except.ok (pyGet w "expression".data)
        else Except.ok Val.vnone
      | _ => Except.ok Val.vnone
    match se with
    | Except.error u => Except.error u
    | Except.ok v => if truthy v then Except.ok v else Except.error ()
  | _ => Except.error ()

end routines_handler

namespace ics_handler

/-- Constant `WEEKDAY_MAPPING` of ics_handler.py: input weekday codes to
two-letter RFC-5545 codes. -/
def WEEKDAY_MAPPING : List (Str × Str) :=
  [("MON".data, "MO".data), ("TUE".data, "TU".data), ("WED".data, "WE".data),
   ("THU".data, "TH".data), ("FRI".data, "FR".data), ("SAT".data, "SA".data),
   ("SUN".data, "SU".data)]

/-- Lookup in `WEEKDAY_MAPPING`. -/
def weekdayLookup : List (Str × Str) → Str → Option Str
  | [], _ => none
  | (k, v) :: rest, key => if k = key then some v else weekdayLookup rest key

/-- One left-to-right pass of Python's `str.replace` for a single-character
pattern: every occurrence of `c` becomes `r`. -/
def replaceChar (c : Char) (r : Str) : Str → Str
  | [] => []
  | x :: xs => if x = c then r ++ replaceChar c r xs else x :: replaceChar c r xs

/-- `escape_ics_text` of ics_handler.py (lines 24-43): backslash first, then
comma, semicolon and newline each get a backslash; carriage returns are
removed; the result is cut to 497 characters plus `...` when longer than
500. -/
def escape_ics_text (text : Str) : Str :=
  if text = [] then []
  else
    let t := replaceChar '\\' ['\\', '\\'] text
    let t := replaceChar ',' ['\\', ','] t
    let t := replaceChar ';' ['\\', ';'] t
    let t := replaceChar '\n' ['\\', 'n'] t
    let t := replaceChar '\r' [] t
    if t.length > 500 then t.take 497 ++ "...".data else t

/-- `validate_time_format` of ics_handler.py (lines 45-56): same pattern as
the routines handler's, with a shorter error message. -/
def validate_time_format (v : Val) : Except Str (Nat × Nat) :=
  match v with
  | .vstr s =>
    match parseTime s with
    | some r => Except.ok r
    | none => Except.error "Time must be in HH:MM format".data
  | _ => Except.error "Time must be a string".data

/-- `get_base_date` (lines 58-60): the fixed Monday anchor date. -/
def get_base_date : Str := "19700105".data

/-- The `f"{get_base_date()}T{hh:02d}{mm:02d}00"` DTSTART value. -/
def pad2 (n : Nat) : Str := if n < 10 then '0' :: natStr n else natStr n

def dtstartFor (hh mm : Nat) : Str :=
  get_base_date ++ "T".data ++ pad2 hh ++ pad2 mm ++ "00".data

/-- The weekly day-mapping loop (lines 113-118): mapped codes kept in input
order, unmapped hashable values dropped with a warning; an unhashable value
(list or dictionary) raises a `TypeError` when tested for dictionary
membership. -/
def mapDayList : List Val → Except Unit (List Str)
  | [] => Except.ok []
  | .vstr s :: rest =>
    (match mapDayList rest with
     | Except.ok r =>
       match weekdayLookup WEEKDAY_MAPPING s with
       | some m => Except.ok (m :: r)
       | none => Except.ok r
     | Except.error u => Except.error u)
  | .vlist _ :: _ => Except.error ()
  | .vdict _ :: _ => Except.error ()
  | _ :: rest => mapDayList rest

/-- `for day in days` over the raw days value: a string is iterated character
by character (one-character strings are never mapping keys), non-iterables
raise. -/
def ics_map_days : Val → Except Unit (List Str)
  | .vlist l => mapDayList l
  | .vstr _ => Except.ok []
  | _ => Except.error ()

/-- A routine record as the exporter reads it: the fields `create_ics_event`
gets with `.get` defaults are optional; `title` and `steps` carry the string
shapes the data model stores; the schedule is kept as an untyped value, since
the export branches on its shape and must skip unusable ones. -/
structure Routine where
  routineId : Option Str
  title : Option Str
  timezone : Option Str
  steps : List Str
  whenv : Val

/-- `create_ics_event` of ics_handler.py (lines 62-163): the VEVENT lines for
one routine, or `none` when the routine is skipped (unsupported or missing
schedule type, unparseable time, no valid weekdays, or an internal raise
caught by the surrounding handler).  `now` is the UTC generation timestamp
interpolated into `DTSTAMP`. -/
def create_ics_event (now : Str) (routine : Routine) : Option (List Str) :=
  let title := escape_ics_text (routine.title.getD "Routine".data)
  let routine_id := routine.routineId.getD "unknown".data
  let tz := routine.timezone.getD "America/New_York".data
  let description := escape_ics_text
    (match routine.steps with
     | [] => "SheGlow routine".data
     | steps => "SheGlow routine steps: ".data ++ List.intercalate "; ".data steps)
  match routine.whenv with
  | .vdict w =>
    match pyGet w "type".data with
    | .vstr ty =>
      if ty = "daily".data then
        match validate_time_format (pyGetD w "time".data (Val.vstr "07:00".data)) with
        | Except.ok (hh, mm) =>
          some ["BEGIN:VEVENT".data,
            "UID:".data ++ routine_id ++ "@sheglow.app".data,
            "DTSTAMP:".data ++ now,
            "SUMMARY:".data ++ title,
            "DESCRIPTION:".data ++ description,
            "DTSTART;TZID=".data ++ tz ++ ":".data ++ dtstartFor hh mm,
            "RRULE:FREQ=DAILY".data,
            "END:VEVENT".data]
        | Except.error _ => none
      else if ty = "weekly".data then
        match validate_time_format (pyGetD w "time".data (Val.vstr "07:00".data)) with
        | Except.ok (hh, mm) =>
          match ics_map_days (pyGetD w "days".data (Val.vlist [Val.vstr "MON".data])) with
          | Except.ok [] => none
          | Except.ok ics_days =>
            some ["BEGIN:VEVENT".data,
              "UID:".data ++ routine_id ++ "@sheglow.app".data,
              "DTSTAMP:".data ++ now,
              "SUMMARY:".data ++ title,
              "DESCRIPTION:".data ++ description,
              "DTSTART;TZID=".data ++ tz ++ ":".data ++ dtstartFor hh mm,
              "RRULE:FREQ=WEEKLY;BYDAY=".data ++ List.intercalate ",".data ics_days,
              "END:VEVENT".data]
          | Except.error _ => none
        | Except.error _ => none
      else if ty = "cron".data then
        some ["BEGIN:VEVENT".data,
          "UID:".data ++ routine_id ++ "@sheglow.app".data,
          "DTSTAMP:".data ++ now,
          "SUMMARY:".data ++ title ++ " (Custom Schedule)".data,
          "DESCRIPTION:".data ++ description
            ++ " - Note: Custom cron schedule not fully supported in calendar".data,
          "DTSTART;TZID=".data ++ tz ++ ":".data ++ get_base_date ++ "T070000".data,
          "END:VEVENT".data]
      else none
    | _ => none
  | _ => none

/-- The fixed VCALENDAR header lines (to_ics, lines 169-175). -/
def icsHeader : List Str :=
  ["BEGIN:VCALENDAR".data, "VERSION:2.0".data,
   "PRODID:-//SheGlow//Concierge Calendar//EN".data,
   "CALSCALE:GREGORIAN".data, "METHOD:PUBLISH".data]

/-- The routine loop of `to_ics` (lines 180-189): the VEVENT lines gathered in
input order, and the `event_count` counter the source increments for each
emitted event (it is only logged, never returned). -/
def to_ics_body (now : Str) : List Routine → List Str × Nat
  | [] => ([], 0)
  | r :: rs =>
    let rest := to_ics_body now rs
    match create_ics_event now r with
    | some el => (el ++ rest.1, rest.2 + 1)
    | none => rest

/-- The full line list `to_ics` assembles: header, events, footer. -/
def to_ics_lines (now : Str) (rs : List Routine) : List Str :=
  icsHeader ++ (to_ics_body now rs).1 ++ ["END:VCALENDAR".data]

/-- `to_ics` of ics_handler.py (lines 165-201): the single value it returns —
the CRLF-joined document text. -/
def to_ics (now : Str) (rs : List Routine) : Str :=
  List.intercalate "\r\n".data (to_ics_lines now rs)

/-- The source's `event_count` (incremented at line 187, logged at line 194). -/
def to_ics_event_count (now : Str) (rs : List Routine) : Nat :=
  (to_ics_body now rs).2

/-- The number of skipped routines, as the claim's "count of skipped events":
routines for which no event could be created.  The source only logs each skip
(line 189); this definition names the quantity so the claim can be stated. -/
def spec_skipped_count (now : Str) (rs : List Routine) : Nat :=
  (rs.filter (fun r => (create_ics_event now r).isNone)).length

end ics_handler

/-! ## Helper lemmas -/

/-- A non-empty string is truthy. -/
theorem truthy_vstr_cons (c : Char) (s : Str) : truthy (Val.vstr (c :: s)) = true := rfl

theorem strListOfVals_map (l : List Str) : strListOfVals (l.map Val.vstr) = some l := by
  induction l with
  | nil => rfl
  | cons a t ih => simp [strListOfVals, ih]

theorem pyJoin_map (sep : Str) (l : List Str) :
    pyJoin sep (Val.vlist (l.map Val.vstr)) = Except.ok (List.intercalate sep l) := by
  simp [pyJoin, pyJoinVals, strListOfVals_map]

/-! ## Claims about the trigger expression compiler -/

open routines_handler in
/-- Claim C1: a daily schedule that passes validation, with validated time
parsing to hour `H` and minute `M`, compiles to exactly the trigger expression
`cron(M H * * ? *)` — minute field first, then hour, day-of-month `*`,
month `*`, day-of-week `?`, year `*`. -/
theorem claim_C1 (data c w : List (Str × Val)) {H M : Nat}
    (hval : validate_routine_data data false = Except.ok (c, []))
    (hwhen : dictLookup c "when".data = some (Val.vdict w))
    (hty : pyGet w "type".data = Val.vstr "daily".data)
    (htime : validate_time_format (pyGetD w "time".data (Val.vstr "07:00".data)) =
      Except.ok (H, M)) :
    create_schedule_expr (Val.vdict w) =
      Except.ok (Val.vstr
        ("cron(".data ++ natStr M ++ " ".data ++ natStr H ++ " * * ? *)".data)) := by
  simp [create_schedule_expr, hty, htime, truthy_vstr_cons]

def c1When : List (Str × Val) :=
  [("type".data, Val.vstr "daily".data), ("time".data, Val.vstr "8:05".data)]

def c1Data : List (Str × Val) :=
  [("title".data, Val.vstr "T".data), ("when".data, Val.vdict c1When)]

def c1Cleaned : List (Str × Val) :=
  [("title".data, Val.vstr "T".data), ("steps".data, Val.vlist []),
   ("when".data, Val.vdict c1When)]

open routines_handler in
/-- Witness for C1: a validated daily schedule at `8:05` compiles to
`cron(5 8 * * ? *)`. -/
theorem claim_C1_witness :
    create_schedule_expr (Val.vdict c1When) =
      Except.ok (Val.vstr
        ("cron(".data ++ natStr 5 ++ " ".data ++ natStr 8 ++ " * * ? *)".data)) :=
  claim_C1 c1Data c1Cleaned c1When rfl rfl rfl rfl

open routines_handler in
/-- Claim C2: a weekly schedule that passes validation, with validated time
`H:M` and non-empty day list `codes`, compiles to exactly
`cron(M H ? * D1,...,Dn *)` with the day codes joined by commas in the order
supplied, without reordering or deduplication. -/
theorem claim_C2 (data c w : List (Str × Val)) (codes : List Str) {H M : Nat}
    (hval : validate_routine_data data false = Except.ok (c, []))
    (hwhen : dictLookup c "when".data = some (Val.vdict w))
    (hty : pyGet w "type".data = Val.vstr "weekly".data)
    (htime : validate_time_format (pyGetD w "time".data (Val.vstr "07:00".data)) =
      Except.ok (H, M))
    (hdays : pyGetD w "days".data (Val.vlist [Val.vstr "MON".data]) =
      Val.vlist (codes.map Val.vstr))
    (hne : codes ≠ []) :
    create_schedule_expr (Val.vdict w) =
      Except.ok (Val.vstr
        ("cron(".data ++ natStr M ++ " ".data ++ natStr H ++ " ? * ".data
          ++ List.intercalate ",".data codes ++ " *)".data)) := by
  simp [create_schedule_expr, hty, htime, hdays, pyJoin_map, truthy_vstr_cons]

def c2When : List (Str × Val) :=
  [("type".data, Val.vstr "weekly".data), ("time".data, Val.vstr "21:15".data),
   ("days".data, Val.vlist [Val.vstr "TUE".data, Val.vstr "MON".data, Val.vstr "TUE".data])]

def c2Data : List (Str × Val) :=
  [("title".data, Val.vstr "T".data), ("when".data, Val.vdict c2When)]

def c2Cleaned : List (Str × Val) :=
  [("title".data, Val.vstr "T".data), ("steps".data, Val.vlist []),
   ("when".data, Val.vdict c2When)]

open routines_handler in
/-- Witness for C2: a validated weekly schedule at `21:15` with days
`TUE,MON,TUE` compiles to `cron(15 21 ? * TUE,MON,TUE *)` — duplicated and
out-of-order codes are preserved verbatim. -/
theorem claim_C2_witness :
    create_schedule_expr (Val.vdict c2When) =
      Except.ok (Val.vstr
        ("cron(".data ++ natStr 15 ++ " ".data ++ natStr 21 ++ " ? * ".data
          ++ List.intercalate ",".data ["TUE".data, "MON".data, "TUE".data]
          ++ " *)".data)) :=
  claim_C2 c2Data c2Cleaned c2When ["TUE".data, "MON".data, "TUE".data]
    rfl rfl rfl rfl rfl (by simp)

/-! ## Claims about the calendar exporter -/

/-- Any character of `replaceChar c r l` comes from the replacement `r` or is
a character of `l` other than `c`. -/
theorem mem_replaceChar (a c : Char) (r l : Str) :
    a ∈ ics_handler.replaceChar c r l → a ∈ r ∨ (a ∈ l ∧ a ≠ c) := by
  induction l with
  | nil => intro h; simp [ics_handler.replaceChar] at h
  | cons x xs ih =>
    intro h
    by_cases hx : x = c
    · rw [ics_handler.replaceChar, if_pos hx] at h
      rcases List.mem_append.mp h with h1 | h2
      · exact Or.inl h1
      · rcases ih h2 with h1 | ⟨h3, h4⟩
        · exact Or.inl h1
        · exact Or.inr ⟨List.mem_cons_of_mem _ h3, h4⟩
    · rw [ics_handler.replaceChar, if_neg hx] at h
      rcases List.mem_cons.mp h with h1 | h2
      · subst h1; exact Or.inr ⟨List.mem_cons_self _ _, hx⟩
      · rcases ih h2 with h1 | ⟨h3, h4⟩
        · exact Or.inl h1
        · exact Or.inr ⟨List.mem_cons_of_mem _ h3, h4⟩

/-- After the newline pass and the carriage-return pass, no raw newline
remains. -/
theorem no_newline_after_passes (t : Str) :
    '\n' ∉ ics_handler.replaceChar '\r' [] (ics_handler.replaceChar '\n' ['\\', 'n'] t) := by
  intro h
  rcases mem_replaceChar _ _ _ _ h with h1 | ⟨h2, _⟩
  · simp at h1
  · rcases mem_replaceChar _ _ _ _ h2 with h3 | ⟨_, h5⟩
    · simp at h3
    · exact h5 rfl

set_option maxRecDepth 20000 in
/-- Claim C7: `escape_ics_text` escapes backslash first, then comma, semicolon
and newline, strips carriage returns, and truncates to at most 500 characters
with a `...` marker: the sample `"A, B; C\n"` escapes to `"A\, B\; C\n"` with
a literal backslash-n, no output contains a raw newline, every output is at
most 500 characters, and a 501-character input is cut to 497 characters
plus `...`. -/
theorem claim_C7 :
    ics_handler.escape_ics_text "A, B; C\n".data = "A\\, B\\; C\\n".data
    ∧ (∀ s : Str, '\n' ∉ ics_handler.escape_ics_text s)
    ∧ (∀ s : Str, (ics_handler.escape_ics_text s).length ≤ 500)
    ∧ ics_handler.escape_ics_text (List.replicate 501 'a') =
        List.replicate 497 'a' ++ "...".data := by
  refine ⟨rfl, ?_, ?_, rfl⟩
  · intro s h
    simp only [ics_handler.escape_ics_text] at h
    split at h
    · simp at h
    · split at h
      · rcases List.mem_append.mp h with h1 | h2
        · exact no_newline_after_passes _ (List.take_subset _ _ h1)
        · simp at h2
      · exact no_newline_after_passes _ h
  · intro s
    simp only [ics_handler.escape_ics_text]
    split
    · simp
    · split
      · rename_i hl
        rw [List.length_append, List.length_take]
        simp
      · rename_i hl
        omega

def c3When : Val :=
  Val.vdict [("type".data, Val.vstr "weekly".data), ("time".data, Val.vstr "07:30".data),
    ("days".data, Val.vlist [Val.vstr "MON".data, Val.vstr "WED".data, Val.vstr "FRI".data])]

open ics_handler in
/-- Claim C3: every routine record with schedule
`{type: weekly, time: "07:30", days: ["MON","WED","FRI"]}` and timezone `tz`
exports a VEVENT block containing the line `RRULE:FREQ=WEEKLY;BYDAY=MO,WE,FR`
(input codes mapped to two-letter RFC-5545 codes in input order) and the line
`DTSTART;TZID=tz:19700105T073000` (the fixed Monday base date at the
validated time). -/
theorem claim_C3 (now : Str) (rid title : Option Str) (tz : Str) (steps : List Str) :
    ∃ e, create_ics_event now ⟨rid, title, some tz, steps, c3When⟩ = some e
      ∧ "RRULE:FREQ=WEEKLY;BYDAY=MO,WE,FR".data ∈ e
      ∧ ("DTSTART;TZID=".data ++ tz ++ ":19700105T073000".data) ∈ e := by
  have h6 : ("DTSTART;TZID=".data ++ tz ++ ":".data ++ dtstartFor 7 30)
      = ("DTSTART;TZID=".data ++ tz ++ ":19700105T073000".data) := by
    rw [List.append_assoc ("DTSTART;TZID=".data ++ tz) ":".data (dtstartFor 7 30)]
    rfl
  refine ⟨_, rfl, ?_, ?_⟩
  · exact .tail _ (.tail _ (.tail _ (.tail _ (.tail _ (.tail _ (.head _))))))
  · rw [← h6]
    exact .tail _ (.tail _ (.tail _ (.tail _ (.tail _ (.head _)))))

/-- The event loop of `to_ics`, in closed form: the emitted lines are the
concatenation of the successful events in input order, and the counter is
their number. -/
theorem to_ics_body_spec (now : Str) (rs : List ics_handler.Routine) :
    ics_handler.to_ics_body now rs =
      ((rs.filterMap (ics_handler.create_ics_event now)).flatten,
        (rs.filterMap (ics_handler.create_ics_event now)).length) := by
  induction rs with
  | nil => rfl
  | cons r t ih =>
    simp only [ics_handler.to_ics_body, ih, List.filterMap_cons]
    cases h : ics_handler.create_ics_event now r with
    | none => simp
    | some el => simp

/-- Emitted plus skipped routines account for the whole batch. -/
theorem emitted_plus_skipped (now : Str) (rs : List ics_handler.Routine) :
    ics_handler.spec_skipped_count now rs + ics_handler.to_ics_event_count now rs
      = rs.length := by
  induction rs with
  | nil => rfl
  | cons r t ih =>
    simp only [ics_handler.spec_skipped_count, ics_handler.to_ics_event_count,
      ics_handler.to_ics_body, List.filter_cons] at *
    cases h : ics_handler.create_ics_event now r with
    | none => simp [h, Option.isNone] at *; omega
    | some el => simp [h, Option.isNone] at *; omega

def c6Now : Str := "20260101T120000Z".data

/-- A routine whose time cannot be parsed: its event creation fails, so the
exporter skips it. -/
def c6Bad : ics_handler.Routine :=
  ⟨some "r-bad".data, some "T".data, none, [],
    Val.vdict [("type".data, Val.vstr "daily".data), ("time".data, Val.vstr "bad".data)]⟩

/-- Counterexample to claim C6: `to_ics` returns only the document string, so
it cannot return emitted/skipped counts to its caller — the empty batch and a
batch of one skipped routine have different skip counts (0 and 1) yet `to_ics`
returns the very same value for both. -/
theorem claim_C6_counterexample :
    ics_handler.to_ics c6Now [] = ics_handler.to_ics c6Now [c6Bad]
    ∧ ics_handler.spec_skipped_count c6Now [] = 0
    ∧ ics_handler.spec_skipped_count c6Now [c6Bad] = 1
    ∧ ics_handler.to_ics_event_count c6Now [] = ics_handler.to_ics_event_count c6Now [c6Bad] :=
  ⟨rfl, rfl, rfl, rfl⟩

open ics_handler in
/-- Claim C6 as amended: for every ordered sequence of routine records,
`to_ics` returns only the CRLF-joined document text (header, the events of the
exportable routines in order, footer); the emitted-event count is computed
internally — it equals the number of routines whose event creation succeeds —
but is only logged, and the skipped routines (the rest of the batch) are only
logged as well, so neither count is returned to the caller. -/
theorem claim_C6 (now : Str) (rs : List Routine) :
    to_ics now rs =
      List.intercalate "\r\n".data
        (icsHeader ++ (rs.filterMap (create_ics_event now)).flatten
          ++ ["END:VCALENDAR".data])
    ∧ to_ics_event_count now rs = (rs.filterMap (create_ics_event now)).length
    ∧ spec_skipped_count now rs + to_ics_event_count now rs = rs.length := by
  refine ⟨?_, ?_, emitted_plus_skipped now rs⟩
  · rw [to_ics, to_ics_lines, to_ics_body_spec]
  · rw [to_ics_event_count, to_ics_body_spec]

/-- Every emitted VEVENT block contains exactly one `BEGIN:VEVENT` line, and
it is the first line of the block. -/
theorem event_begin_count (now : Str) (r : ics_handler.Routine) (e : List Str)
    (h : ics_handler.create_ics_event now r = some e) :
    e.count "BEGIN:VEVENT".data = 1 ∧ e.head? = some "BEGIN:VEVENT".data := by
  revert h
  simp only [ics_handler.create_ics_event]
  repeat' split
  all_goals intro h
  all_goals first
    | exact Option.noConfusion h
    | (obtain rfl := Option.some.inj h; exact ⟨rfl, rfl⟩)

open ics_handler in
/-- Claim C9: a batch of three routines of which exactly one has an
unparseable time (a daily or weekly schedule whose time raises) and the other
two are exportable yields a document with exactly two VEVENT blocks, still
well-formed: the line list starts with `BEGIN:VCALENDAR`, ends with
`END:VCALENDAR`, and the returned document is those lines joined with CRLF. -/
theorem claim_C9 (now : Str) (r1 r2 r3 : Routine) {e1 e3 : List Str}
    {w2 : List (Str × Val)} {tmsg : Str}
    (h1 : create_ics_event now r1 = some e1)
    (hw2 : r2.whenv = Val.vdict w2)
    (hty2 : pyGet w2 "type".data = Val.vstr "daily".data
      ∨ pyGet w2 "type".data = Val.vstr "weekly".data)
    (htime2 : ics_handler.validate_time_format
      (pyGetD w2 "time".data (Val.vstr "07:00".data)) = Except.error tmsg)
    (h3 : create_ics_event now r3 = some e3) :
    (to_ics_lines now [r1, r2, r3]).count "BEGIN:VEVENT".data = 2
    ∧ (to_ics_lines now [r1, r2, r3]).head? = some "BEGIN:VCALENDAR".data
    ∧ (to_ics_lines now [r1, r2, r3]).getLast? = some "END:VCALENDAR".data
    ∧ to_ics now [r1, r2, r3] =
        List.intercalate "\r\n".data (to_ics_lines now [r1, r2, r3]) := by
  have h2 : create_ics_event now r2 = none := by
    rcases hty2 with hty | hty <;>
      simp [create_ics_event, hw2, hty, htime2]
  have hbody : to_ics_body now [r1, r2, r3] = (e1 ++ e3, 2) := by
    simp [to_ics_body, h1, h2, h3]
  refine ⟨?_, ?_, ?_, rfl⟩
  · rw [to_ics_lines, hbody]
    rw [List.count_append, List.count_append]
    rw [List.count_append]
    rw [(event_begin_count now r1 e1 h1).1, (event_begin_count now r3 e3 h3).1]
    rfl
  · rw [to_ics_lines, hbody]
    rfl
  · rw [to_ics_lines]
    exact List.getLast?_concat _

def c9Now : Str := "20260102T080000Z".data

def c9R1 : ics_handler.Routine :=
  ⟨some "r1".data, some "Morning".data, none, [],
    Val.vdict [("type".data, Val.vstr "daily".data), ("time".data, Val.vstr "07:00".data)]⟩

def c9R2 : ics_handler.Routine :=
  ⟨some "r2".data, some "Broken".data, none, [],
    Val.vdict [("type".data, Val.vstr "daily".data), ("time".data, Val.vstr "25:99".data)]⟩

def c9R3 : ics_handler.Routine :=
  ⟨some "r3".data, some "Evening".data, none, [],
    Val.vdict [("type".data, Val.vstr "weekly".data), ("time".data, Val.vstr "20:00".data),
      ("days".data, Val.vlist [Val.vstr "FRI".data])]⟩

open ics_handler in
/-- Witness for C9: a concrete batch of three routines, the middle one with
the unparseable time `25:99`, exports exactly two VEVENT blocks in a
well-formed document. -/
theorem claim_C9_witness :
    (to_ics_lines c9Now [c9R1, c9R2, c9R3]).count "BEGIN:VEVENT".data = 2
    ∧ (to_ics_lines c9Now [c9R1, c9R2, c9R3]).head? = some "BEGIN:VCALENDAR".data
    ∧ (to_ics_lines c9Now [c9R1, c9R2, c9R3]).getLast? = some "END:VCALENDAR".data
    ∧ to_ics c9Now [c9R1, c9R2, c9R3] =
        List.intercalate "\r\n".data (to_ics_lines c9Now [c9R1, c9R2, c9R3]) :=
  claim_C9 c9Now c9R1 c9R2 c9R3 rfl rfl (Or.inl rfl) rfl rfl

/-! ## Structure of the validator's output -/

theorem dictLookup_eq_none (l : List (Str × Val)) (k : Str)
    (h : ∀ p ∈ l, p.1 ≠ k) : dictLookup l k = none := by
  induction l with
  | nil => rfl
  | cons a t ih =>
    rw [dictLookup, if_neg (h a (List.mem_cons_self _ _))]
    exact ih fun p hp => h p (List.mem_cons_of_mem _ hp)

theorem dictLookup_append_right (l1 l2 : List (Str × Val)) (k : Str)
    (h : ∀ p ∈ l1, p.1 ≠ k) : dictLookup (l1 ++ l2) k = dictLookup l2 k := by
  induction l1 with
  | nil => rfl
  | cons a t ih =>
    rw [List.cons_append, dictLookup, if_neg (h a (List.mem_cons_self _ _))]
    exact ih fun p hp => h p (List.mem_cons_of_mem _ hp)

open routines_handler in
/-- The title block only ever stores the `title` key. -/
theorem titlePhase_keys (data : List (Str × Val)) (u : Bool) :
    ∀ p ∈ (titlePhase data u).1, p.1 = "title".data := by
  intro p hp
  simp only [titlePhase] at hp
  repeat' split at hp
  all_goals simp_all

open routines_handler in
/-- The steps block only ever stores the `steps` key. -/
theorem stepsPhase_keys (data : List (Str × Val)) (u : Bool) (g : List Str) :
    ∀ p ∈ (stepsPhase data u g).1, p.1 = "steps".data := by
  intro p hp
  simp only [stepsPhase] at hp
  repeat' split at hp
  all_goals simp_all

open routines_handler in
/-- The timezone block only ever stores the `timezone` key. -/
theorem tzPhase_keys (data : List (Str × Val)) :
    ∀ p ∈ (tzPhase data).1, p.1 = "timezone".data := by
  intro p hp
  simp only [tzPhase] at hp
  repeat' split at hp
  all_goals simp_all

open routines_handler in
/-- The schedule block only ever stores the `when` key. -/
theorem whenPhase_keys (data : List (Str × Val)) (u : Bool) (g : List Str)
    (q : List (Str × Val) × List Str) (h : whenPhase data u g = Except.ok q) :
    ∀ p ∈ q.1, p.1 = "when".data := by
  intro p hp
  revert h
  simp only [whenPhase]
  repeat' split
  all_goals intro h
  all_goals first
    | exact Except.noConfusion h
    | (obtain rfl := Except.ok.inj h
       first
       | exact absurd hp (List.not_mem_nil p)
       | (obtain rfl := List.mem_singleton.mp hp; rfl))

open routines_handler in
/-- Shape of every `cleaned_when` the creation-mode validator can return with
an empty error list: exactly the fields relevant to the type, with the time
validated, the weekly day list non-empty and all-valid, and the cron
expression a stripped non-empty-input string. -/
def GoodWhen (cw : List (Str × Val)) : Prop :=
  (∃ ts, cw = [("type".data, Val.vstr "daily".data), ("time".data, ts)]
    ∧ ∃ hm, validate_time_format ts = Except.ok hm)
  ∨ (∃ ts dl, cw = [("type".data, Val.vstr "weekly".data), ("time".data, ts),
        ("days".data, Val.vlist dl)]
    ∧ (∃ hm, validate_time_format ts = Except.ok hm)
    ∧ dl ≠ [] ∧ ∀ d ∈ dl, isValidDay d = true)
  ∨ (∃ e, cw = [("type".data, Val.vstr "cron".data),
        ("expression".data, Val.vstr (pyStrip e))] ∧ e ≠ [])

open routines_handler in
/-- The default schedule satisfies the canonical shape. -/
theorem goodWhen_default :
    GoodWhen [("type".data, Val.vstr "daily".data), ("time".data, Val.vstr "07:00".data)] :=
  Or.inl ⟨Val.vstr "07:00".data, rfl, ⟨(7, 0), rfl⟩⟩

open routines_handler in
/-- Creation-mode schedule validation that ends with an empty error list
either adds no `when` entry or adds a single well-shaped one. -/
theorem whenPhase_ok_nil (data : List (Str × Val)) (g : List Str) (c : List (Str × Val))
    (h : whenPhase data false g = Except.ok (c, [])) :
    c = [] ∨ ∃ cw, c = [("when".data, Val.vdict cw)] ∧ GoodWhen cw := by
  simp only [whenPhase] at h
  repeat' split at h
  any_goals exact Except.noConfusion h
  any_goals (left; exact (Prod.mk.inj (Except.ok.inj h)).1.symm)
  any_goals
    (right
     obtain ⟨hc, he⟩ := Prod.mk.inj (Except.ok.inj h)
     refine ⟨[("type".data, Val.vstr "daily".data), ("time".data, Val.vstr "07:00".data)],
       ?_, goodWhen_default⟩
     exact hc.symm)
  rename_i hg whenv w hwv v ty hty hvalid x d heqd hguard
  obtain ⟨hc, he⟩ := Prod.mk.inj (Except.ok.inj h)
  right
  obtain ⟨h12, he3⟩ := List.append_eq_nil.mp he
  obtain ⟨ht2, hd2⟩ := List.append_eq_nil.mp h12
  rcases hvalid with rfl | rfl | rfl
  · -- daily: the time parsed, no days or expression entry
    cases hv : validate_time_format (pyGetD w "time".data (Val.vstr "07:00".data)) with
    | error m =>
      rw [show (timeCheck "daily".data w).2 = ["when.time: ".data ++ m] by
        simp [timeCheck, hv]] at ht2
      exact absurd ht2 (List.cons_ne_nil _ _)
    | ok hm =>
      have htt : timeCheck "daily".data w
          = ([("time".data, pyGetD w "time".data (Val.vstr "07:00".data))], []) := by
        simp [timeCheck, hv]
      have hdd : d = ([], []) := by
        rw [show daysCheck "daily".data w = Except.ok ([], []) by simp [daysCheck]] at heqd
        exact (Except.ok.inj heqd).symm
      have hee : exprCheck "daily".data w = ([], []) := by simp [exprCheck]
      rw [htt, hdd, hee] at hc
      exact ⟨_, hc.symm, Or.inl ⟨_, rfl, ⟨hm, hv⟩⟩⟩
  · -- weekly: the time parsed, the day list non-empty and fully valid
    cases hv : validate_time_format (pyGetD w "time".data (Val.vstr "07:00".data)) with
    | error m =>
      rw [show (timeCheck "weekly".data w).2 = ["when.time: ".data ++ m] by
        simp [timeCheck, hv]] at ht2
      exact absurd ht2 (List.cons_ne_nil _ _)
    | ok hm =>
      have htt : timeCheck "weekly".data w
          = ([("time".data, pyGetD w "time".data (Val.vstr "07:00".data))], []) := by
        simp [timeCheck, hv]
      have hee : exprCheck "weekly".data w = ([], []) := by simp [exprCheck]
      cases hdv : pyGetD w "days".data (Val.vlist [Val.vstr "MON".data]) with
      | vlist dl =>
        cases dl with
        | nil =>
          rw [show daysCheck "weekly".data w = Except.ok ([], [daysErrMsg]) by
            simp [daysCheck, hdv]] at heqd
          obtain rfl := Except.ok.inj heqd
          exact absurd hd2 (List.cons_ne_nil _ _)
        | cons a as =>
          cases hf : (a :: as).filter (fun x => !(isValidDay x)) with
          | nil =>
            rw [show daysCheck "weekly".data w
                = Except.ok ([("days".data, Val.vlist (a :: as))], []) by
              simp [daysCheck, hdv, hf]] at heqd
            obtain rfl := Except.ok.inj heqd
            rw [htt, hee] at hc
            refine ⟨_, hc.symm,
              Or.inr (Or.inl ⟨_, a :: as, rfl, ⟨hm, hv⟩, List.cons_ne_nil _ _, ?_⟩)⟩
            intro y hy
            have h5 := (List.filter_eq_nil_iff.mp hf) y hy
            simpa using h5
          | cons b bs =>
            cases hj : pyJoinVals ", ".data (b :: bs) with
            | ok j =>
              rw [show daysCheck "weekly".data w = Except.ok ([], [invalidDaysErr j]) by
                simp [daysCheck, hdv, hf, hj]] at heqd
              obtain rfl := Except.ok.inj heqd
              exact absurd hd2 (List.cons_ne_nil _ _)
            | error u =>
              rw [show daysCheck "weekly".data w = Except.error u by
                simp [daysCheck, hdv, hf, hj]] at heqd
              exact Except.noConfusion heqd
      | vnone =>
        rw [show daysCheck "weekly".data w = Except.ok ([], [daysErrMsg]) by
          simp [daysCheck, hdv]] at heqd
        obtain rfl := Except.ok.inj heqd
        exact absurd hd2 (List.cons_ne_nil _ _)
      | vstr s2 =>
        rw [show daysCheck "weekly".data w = Except.ok ([], [daysErrMsg]) by
          simp [daysCheck, hdv]] at heqd
        obtain rfl := Except.ok.inj heqd
        exact absurd hd2 (List.cons_ne_nil _ _)
      | vdict d2 =>
        rw [show daysCheck "weekly".data w = Except.ok ([], [daysErrMsg]) by
          simp [daysCheck, hdv]] at heqd
        obtain rfl := Except.ok.inj heqd
        exact absurd hd2 (List.cons_ne_nil _ _)
      | vother b2 =>
        rw [show daysCheck "weekly".data w = Except.ok ([], [daysErrMsg]) by
          simp [daysCheck, hdv]] at heqd
        obtain rfl := Except.ok.inj heqd
        exact absurd hd2 (List.cons_ne_nil _ _)
  · -- cron: the stored expression is the stripped non-empty input string
    have htt : timeCheck "cron".data w = ([], []) := by simp [timeCheck]
    have hdd : d = ([], []) := by
      rw [show daysCheck "cron".data w = Except.ok ([], []) by simp [daysCheck]] at heqd
      exact (Except.ok.inj heqd).symm
    cases hev : pyGet w "expression".data with
    | vstr e =>
      cases e with
      | nil =>
        rw [show (exprCheck "cron".data w).2 = [exprErrMsg] by simp [exprCheck, hev]] at he3
        exact absurd he3 (List.cons_ne_nil _ _)
      | cons c0 cs =>
        have hee : exprCheck "cron".data w
            = ([("expression".data, Val.vstr (pyStrip (c0 :: cs)))], []) := by
          simp [exprCheck, hev]
        rw [htt, hdd, hee] at hc
        exact ⟨_, hc.symm, Or.inr (Or.inr ⟨c0 :: cs, rfl, List.cons_ne_nil _ _⟩)⟩
    | vnone =>
      rw [show (exprCheck "cron".data w).2 = [exprErrMsg] by simp [exprCheck, hev]] at he3
      exact absurd he3 (List.cons_ne_nil _ _)
    | vlist l2 =>
      rw [show (exprCheck "cron".data w).2 = [exprErrMsg] by simp [exprCheck, hev]] at he3
      exact absurd he3 (List.cons_ne_nil _ _)
    | vdict d2 =>
      rw [show (exprCheck "cron".data w).2 = [exprErrMsg] by simp [exprCheck, hev]] at he3
      exact absurd he3 (List.cons_ne_nil _ _)
    | vother b2 =>
      rw [show (exprCheck "cron".data w).2 = [exprErrMsg] by simp [exprCheck, hev]] at he3
      exact absurd he3 (List.cons_ne_nil _ _)

open routines_handler in
/-- No entry contributed by the title, steps or timezone blocks carries the
`when` key. -/
theorem front_no_when (data : List (Str × Val)) :
    ∀ p ∈ ((titlePhase data false).1
      ++ (stepsPhase data false (titlePhase data false).2).1 ++ (tzPhase data).1),
      p.1 ≠ "when".data := by
  intro p hp
  rcases List.mem_append.mp hp with hp | hp
  · rcases List.mem_append.mp hp with hp | hp
    · rw [titlePhase_keys data false p hp]; decide
    · rw [stepsPhase_keys data false _ p hp]; decide
  · rw [tzPhase_keys data p hp]; decide

open routines_handler in
/-- A `when` entry in creation-mode cleaned data with an empty error list is
well-shaped. -/
theorem validate_ok_nil_when (data c w : List (Str × Val))
    (h : validate_routine_data data false = Except.ok (c, []))
    (hw : dictLookup c "when".data = some (Val.vdict w)) : GoodWhen w := by
  simp only [validate_routine_data] at h
  split at h
  · exact Except.noConfusion h
  · rename_i wq heq
    obtain ⟨hc, he⟩ := Prod.mk.inj (Except.ok.inj h)
    obtain ⟨h123, h4⟩ := List.append_eq_nil.mp he
    obtain ⟨w1, w2⟩ := wq
    subst h4
    subst hc
    rcases whenPhase_ok_nil data _ w1 heq with rfl | ⟨cw, rfl, hgood⟩
    · rw [dictLookup_eq_none _ _ ?_] at hw
      · exact Option.noConfusion hw
      · intro p hp
        rcases List.mem_append.mp hp with hp | hp
        · exact front_no_when data p hp
        · exact absurd hp (List.not_mem_nil p)
    · rw [dictLookup_append_right _ _ _ (front_no_when data)] at hw
      rw [show dictLookup [("when".data, Val.vdict cw)] "when".data
        = some (Val.vdict cw) by simp [dictLookup]] at hw
      obtain rfl := Val.vdict.inj (Option.some.inj hw)
      exact hgood

theorem strListOfVals_of_strings (l : List Val) (h : ∀ d ∈ l, ∃ s, d = Val.vstr s) :
    ∃ ss, strListOfVals l = some ss := by
  induction l with
  | nil => exact ⟨[], rfl⟩
  | cons a t ih =>
    obtain ⟨s, rfl⟩ := h a (List.mem_cons_self _ _)
    obtain ⟨ss, hss⟩ := ih fun d hd => h d (List.mem_cons_of_mem _ hd)
    exact ⟨s :: ss, by simp [strListOfVals, hss]⟩

open routines_handler in
theorem isValidDay_vstr (d : Val) (h : isValidDay d = true) : ∃ s, d = Val.vstr s := by
  cases d with
  | vstr s => exact ⟨s, rfl⟩
  | vnone => simp [isValidDay] at h
  | vlist l => simp [isValidDay] at h
  | vdict l => simp [isValidDay] at h
  | vother b => simp [isValidDay] at h

open routines_handler in
/-- A well-shaped `cleaned_when` compiles without the raised failure, as long
as its (already stripped) cron expression is not the empty string. -/
theorem goodWhen_create_ok (w : List (Str × Val)) (hg : GoodWhen w)
    (hcron : pyGet w "type".data = Val.vstr "cron".data →
      pyGet w "expression".data ≠ Val.vstr []) :
    ∃ v, create_schedule_expr (Val.vdict w) = Except.ok v := by
  rcases hg with ⟨ts, rfl, ⟨hm, hv⟩⟩ | ⟨ts, dl, rfl, ⟨hm, hv⟩, hne, hall⟩ | ⟨e, rfl, hene⟩
  · obtain ⟨H, M⟩ := hm
    refine ⟨Val.vstr ("cron(".data ++ natStr M ++ " ".data ++ natStr H
      ++ " * * ? *)".data), ?_⟩
    simp [create_schedule_expr, pyGet, dictLookup, pyGetD, hv, truthy_vstr_cons]
  · obtain ⟨H, M⟩ := hm
    obtain ⟨ss, hss⟩ := strListOfVals_of_strings dl
      fun d hd => isValidDay_vstr d (hall d hd)
    refine ⟨Val.vstr ("cron(".data ++ natStr M ++ " ".data ++ natStr H ++ " ? * ".data
      ++ List.intercalate ",".data ss ++ " *)".data), ?_⟩
    simp [create_schedule_expr, pyGet, dictLookup, pyGetD, hv, pyJoin, pyJoinVals, hss,
      truthy_vstr_cons]
  · cases hst : pyStrip e with
    | nil =>
      exfalso
      apply hcron rfl
      rw [show pyGet [("type".data, Val.vstr "cron".data),
        ("expression".data, Val.vstr (pyStrip e))] "expression".data
        = Val.vstr (pyStrip e) from rfl, hst]
    | cons c0 cs =>
      refine ⟨Val.vstr (pyStrip e), ?_⟩
      simp [create_schedule_expr, pyGet, dictLookup, hst, truthy_vstr_cons]

def c4BadWhen : List (Str × Val) :=
  [("type".data, Val.vstr "cron".data), ("expression".data, Val.vstr [])]

def c4BadData : List (Str × Val) :=
  [("title".data, Val.vstr "T".data),
   ("when".data, Val.vdict [("type".data, Val.vstr "cron".data),
     ("expression".data, Val.vstr " ".data)])]

def c4BadCleaned : List (Str × Val) :=
  [("title".data, Val.vstr "T".data), ("steps".data, Val.vlist []),
   ("when".data, Val.vdict c4BadWhen)]

open routines_handler in
/-- Counterexample to claim C4: a cron schedule whose expression is the
whitespace-only string `" "` passes validation (the non-empty check runs
before stripping, so the cleaned spec carries the empty expression), yet
`create_schedule` raises its `no expression can be derived` failure on that
validated spec — the failure is reachable for a spec that passed the
Validator. -/
theorem claim_C4_counterexample :
    validate_routine_data c4BadData false = Except.ok (c4BadCleaned, [])
    ∧ dictLookup c4BadCleaned "when".data = some (Val.vdict c4BadWhen)
    ∧ create_schedule_expr (Val.vdict c4BadWhen) = Except.error () :=
  ⟨rfl, rfl, rfl⟩

open routines_handler in
/-- Claim C4 as amended: for every schedule accepted by the Validator
(creation-mode validation returns it in cleaned data with an empty error
list), `create_schedule` succeeds in deriving an expression — provided the
schedule is not a cron spec whose cleaned expression is the empty string.
Daily and weekly specs can never hit the failure after validation; a cron
spec can, exactly when its expression was whitespace-only, because the
Validator checks non-emptiness before stripping. -/
theorem claim_C4 (data c w : List (Str × Val))
    (hval : validate_routine_data data false = Except.ok (c, []))
    (hwhen : dictLookup c "when".data = some (Val.vdict w))
    (hcron : pyGet w "type".data = Val.vstr "cron".data →
      pyGet w "expression".data ≠ Val.vstr []) :
    ∃ v, create_schedule_expr (Val.vdict w) = Except.ok v :=
  goodWhen_create_ok w (validate_ok_nil_when data c w hval hwhen) hcron

def c4When : List (Str × Val) :=
  [("type".data, Val.vstr "cron".data),
   ("expression".data, Val.vstr "rate(5 minutes)".data)]

def c4Data : List (Str × Val) :=
  [("title".data, Val.vstr "T".data), ("when".data, Val.vdict c4When)]

def c4Cleaned : List (Str × Val) :=
  [("title".data, Val.vstr "T".data), ("steps".data, Val.vlist []),
   ("when".data, Val.vdict c4When)]

open routines_handler in
/-- Witness for the amended C4: a validated cron schedule with a non-blank
expression compiles successfully. -/
theorem claim_C4_witness :
    ∃ v, create_schedule_expr (Val.vdict c4When) = Except.ok v :=
  claim_C4 c4Data c4Cleaned c4When rfl rfl
    (fun _ habs => absurd (Val.vstr.inj habs) (by decide))

def c5BadData : List (Str × Val) :=
  [("title".data, Val.vstr "T".data),
   ("when".data, Val.vdict [("type".data, Val.vstr "daily".data),
     ("time".data, Val.vstr "07:00".data),
     ("days".data, Val.vlist [Val.vstr "FUNDAY".data]),
     ("expression".data, Val.vother true)])]

def c5BadCleaned : List (Str × Val) :=
  [("title".data, Val.vstr "T".data), ("steps".data, Val.vlist []),
   ("when".data, Val.vdict [("type".data, Val.vstr "daily".data),
     ("time".data, Val.vstr "07:00".data)])]

open routines_handler in
/-- Counterexample to claim C5: an input carrying fields irrelevant to its
declared type (a daily schedule that also carries `days` — an invalid one at
that — and `expression`) still validates successfully with no errors; the
extraneous fields are silently dropped from the canonical spec, not
rejected. -/
theorem claim_C5_counterexample :
    validate_routine_data c5BadData false = Except.ok (c5BadCleaned, []) := rfl

open routines_handler in
/-- Claim C5 as amended: every canonical spec the creation-mode Validator
returns populates exactly the fields relevant to its type (daily: type+time;
weekly: type+time+days; cron: type+expression), but construction does not
reject inputs carrying irrelevant fields — it ignores them. -/
theorem claim_C5 (data c w : List (Str × Val))
    (hval : validate_routine_data data false = Except.ok (c, []))
    (hwhen : dictLookup c "when".data = some (Val.vdict w)) :
    (pyGet w "type".data = Val.vstr "daily".data →
      w.map Prod.fst = ["type".data, "time".data])
    ∧ (pyGet w "type".data = Val.vstr "weekly".data →
      w.map Prod.fst = ["type".data, "time".data, "days".data])
    ∧ (pyGet w "type".data = Val.vstr "cron".data →
      w.map Prod.fst = ["type".data, "expression".data]) := by
  rcases validate_ok_nil_when data c w hval hwhen with
    ⟨ts, rfl, -⟩ | ⟨ts, dl, rfl, -⟩ | ⟨e, rfl, -⟩
  · refine ⟨fun _ => rfl, fun hty => ?_, fun hty => ?_⟩
    · exact absurd (Val.vstr.inj hty) (by decide)
    · exact absurd (Val.vstr.inj hty) (by decide)
  · refine ⟨fun hty => ?_, fun _ => rfl, fun hty => ?_⟩
    · exact absurd (Val.vstr.inj hty) (by decide)
    · exact absurd (Val.vstr.inj hty) (by decide)
  · refine ⟨fun hty => ?_, fun hty => ?_, fun _ => rfl⟩
    · exact absurd (Val.vstr.inj hty) (by decide)
    · exact absurd (Val.vstr.inj hty) (by decide)

def c5When : List (Str × Val) :=
  [("type".data, Val.vstr "weekly".data), ("time".data, Val.vstr "07:30".data),
   ("days".data, Val.vlist [Val.vstr "MON".data])]

def c5Data : List (Str × Val) :=
  [("title".data, Val.vstr "T".data), ("when".data, Val.vdict c5When)]

def c5Cleaned : List (Str × Val) :=
  [("title".data, Val.vstr "T".data), ("steps".data, Val.vlist []),
   ("when".data, Val.vdict c5When)]

open routines_handler in
/-- Witness for the amended C5: a validated weekly spec carries exactly the
keys `type`, `time`, `days`. -/
theorem claim_C5_witness :
    c5When.map Prod.fst = ["type".data, "time".data, "days".data] :=
  (claim_C5 c5Data c5Cleaned c5When rfl rfl).2.1 rfl

def c8RaiseData : List (Str × Val) :=
  [("title".data, Val.vstr "T".data),
   ("when".data, Val.vdict [("type".data, Val.vstr "weekly".data),
     ("days".data, Val.vlist [Val.vother true])])]

open routines_handler in
/-- Counterexample to claim C8: validation is not exception-free — a weekly
submission whose `days` list contains a non-string element reaches
`', '.join(invalid_days)` while building the error message, which raises a
`TypeError` out of `validate_routine_data` instead of returning an error
list. -/
theorem claim_C8_counterexample :
    validate_routine_data c8RaiseData false = Except.error () := rfl

open routines_handler in
/-- The only raise in creation-mode validation: every invalid entry of a
supplied weekly `days` list must be a string for the error-message join to
succeed. -/
def SafeDays (data : List (Str × Val)) : Prop :=
  ∀ w dl, pyGet data "when".data = Val.vdict w →
    pyGet w "type".data = Val.vstr "weekly".data →
    pyGetD w "days".data (Val.vlist [Val.vstr "MON".data]) = Val.vlist dl →
    ∀ d ∈ dl, ∃ s, d = Val.vstr s

open routines_handler in
/-- Under `SafeDays`, the schedule block never raises. -/
theorem whenPhase_ok_of_safe (data : List (Str × Val)) (g : List Str)
    (hsafe : SafeDays data) : ∃ q, whenPhase data false g = Except.ok q := by
  cases hres : whenPhase data false g with
  | ok q => exact ⟨q, rfl⟩
  | error u =>
    exfalso
    simp only [whenPhase] at hres
    repeat' split at hres
    any_goals exact Except.noConfusion hres
    rename_i hgd whenv w hwv v ty hty hvalid x u2 heqd
    simp only [daysCheck] at heqd
    repeat' split at heqd
    any_goals exact Except.noConfusion heqd
    rename_i htyw xa dl hdlne hdays xb hfne xc u3 heqj
    subst htyw
    have hall := hsafe w dl hwv hty hdays
    obtain ⟨ss, hss⟩ := strListOfVals_of_strings (dl.filter (fun d => !isValidDay d))
      fun d hd => hall d (List.mem_of_mem_filter hd)
    rw [show pyJoinVals ", ".data (dl.filter (fun d => !isValidDay d))
      = Except.ok (List.intercalate ", ".data ss) from by simp [pyJoinVals, hss]] at heqj
    exact Except.noConfusion heqj

def c8BothData : List (Str × Val) :=
  [("title".data, Val.vstr []),
   ("when".data, Val.vdict [("type".data, Val.vstr "daily".data),
     ("time".data, Val.vstr "99:99".data)])]

open routines_handler in
/-- Claim C8 as amended: creation-mode validation returns a cleaned spec or a
list of error strings without raising, provided every element of a supplied
weekly `days` list is a string (a non-string invalid day raises while the
error message is built); it does not stop at the first error — an input with
an invalid title and an invalid `when.time` yields both errors, in order —
and when the `type` field itself is invalid the schedule block reports the
single type error and runs no further per-field checks. -/
theorem claim_C8 :
    (∀ data : List (Str × Val), SafeDays data →
      ∃ p, validate_routine_data data false = Except.ok p)
    ∧ validate_routine_data c8BothData false
        = Except.ok ([("steps".data, Val.vlist [])],
            [titleReqErr, "when.time: Time must be in HH:MM format (00:00-23:59)".data])
    ∧ (∀ (data : List (Str × Val)) (g : List Str) (w : List (Str × Val)),
        pyGet data "when".data = Val.vdict w →
        (∀ ty, pyGet w "type".data = Val.vstr ty →
          ¬(ty = "daily".data ∨ ty = "weekly".data ∨ ty = "cron".data)) →
        whenPhase data false g = Except.ok ([], [typeErrMsg])) := by
  refine ⟨?_, rfl, ?_⟩
  · intro data hsafe
    obtain ⟨q, hq⟩ := whenPhase_ok_of_safe data
      ((titlePhase data false).2 ++ (stepsPhase data false (titlePhase data false).2).2
        ++ (tzPhase data).2) hsafe
    refine ⟨((titlePhase data false).1
        ++ (stepsPhase data false (titlePhase data false).2).1 ++ (tzPhase data).1 ++ q.1,
      (titlePhase data false).2
        ++ (stepsPhase data false (titlePhase data false).2).2 ++ (tzPhase data).2
        ++ q.2), ?_⟩
    simp only [validate_routine_data, hq]
  · intro data g w hwv hbad
    simp only [whenPhase, hwv]
    cases hty : pyGet w "type".data with
    | vstr ty =>
      simp only [if_neg (hbad ty hty)]
      rfl
    | vnone => rfl
    | vlist l => rfl
    | vdict d => rfl
    | vother b => rfl

def c8SafeData : List (Str × Val) :=
  [("title".data, Val.vstr "T".data),
   ("when".data, Val.vdict [("type".data, Val.vstr "weekly".data),
     ("days".data, Val.vlist [Val.vstr "MON".data, Val.vstr "FUNDAY".data])])]

open routines_handler in
/-- Witness for the amended C8: a weekly submission whose days are all strings
(one of them the invalid code `FUNDAY`) is validated without raising. -/
theorem claim_C8_witness :
    ∃ p, validate_routine_data c8SafeData false = Except.ok p :=
  claim_C8.1 c8SafeData (by
    intro w dl hw hty hdl
    obtain rfl := Val.vdict.inj hw
    obtain rfl := Val.vlist.inj hdl
    intro d hd
    cases hd with
    | head => exact ⟨_, rfl⟩
    | tail _ hd2 =>
      cases hd2 with
      | head => exact ⟨_, rfl⟩
      | tail _ hd3 => exact absurd hd3 (List.not_mem_nil d))

open routines_handler in
/-- When the accumulated error list at the guard is non-empty, a supplied
steps array is validated but not stored. -/
theorem stepsPhase_no_entry (data : List (Str × Val)) (g : List Str) (l : List Val)
    (hsl : pyGet data "steps".data = Val.vlist l) (hg : g ≠ []) :
    (stepsPhase data false g).1 = [] := by
  simp only [stepsPhase, hsl]
  split
  · split
    · rfl
    · split
      · rename_i hgr
        exact absurd (List.append_eq_nil.mp hgr).1 hg
      · rfl
  · rfl

open routines_handler in
/-- When the whole accumulated error list is non-empty and a schedule value
is present, no `when` entry is stored. -/
theorem whenPhase_no_entry (data : List (Str × Val)) (g : List Str)
    (q : List (Str × Val) × List Str) (h : whenPhase data false g = Except.ok q)
    (hwv : pyGet data "when".data ≠ Val.vnone) (hne : g ++ q.2 ≠ []) : q.1 = [] := by
  simp only [whenPhase] at h
  repeat' split at h
  all_goals first
    | exact Except.noConfusion h
    | (obtain rfl := Except.ok.inj h; rfl)
    | exact absurd (by assumption) hwv
    | (obtain rfl := Except.ok.inj h
       exact absurd (by assumption) hne)

open routines_handler in
/-- Claim C10: in creation mode, whenever validation has recorded any error,
the `when` entry is omitted from the cleaned data as long as a schedule value
was supplied (and likewise the `steps` entry when a steps array was supplied
and the title block already errored), because inclusion is guarded on the
whole accumulated error list being empty — so an input with an invalid title
and a fully valid weekly schedule yields cleaned data with no `when` key. -/
theorem claim_C10 (data c : List (Str × Val)) (errs : List Str)
    (hval : validate_routine_data data false = Except.ok (c, errs))
    (hne : errs ≠ []) :
    (pyGet data "when".data ≠ Val.vnone → dictLookup c "when".data = none)
    ∧ ((titlePhase data false).2 ≠ [] →
        ∀ l, pyGet data "steps".data = Val.vlist l → dictLookup c "steps".data = none) := by
  simp only [validate_routine_data] at hval
  split at hval
  · exact Except.noConfusion hval
  · rename_i wq heq
    obtain ⟨hc, he⟩ := Prod.mk.inj (Except.ok.inj hval)
    subst hc
    constructor
    · intro hwv
      have hw1 : wq.1 = [] := by
        apply whenPhase_no_entry data _ wq heq hwv
        rw [he]
        exact hne
      apply dictLookup_eq_none
      intro p hp
      rcases List.mem_append.mp hp with hp | hp
      · exact front_no_when data p hp
      · rw [hw1] at hp
        exact absurd hp (List.not_mem_nil p)
    · intro ht2 l hsl
      have hs1 : (stepsPhase data false (titlePhase data false).2).1 = [] :=
        stepsPhase_no_entry data _ l hsl ht2
      apply dictLookup_eq_none
      intro p hp
      rcases List.mem_append.mp hp with hp | hp
      · rcases List.mem_append.mp hp with hp | hp
        · rcases List.mem_append.mp hp with hp | hp
          · rw [titlePhase_keys data false p hp]; decide
          · rw [hs1] at hp
            exact absurd hp (List.not_mem_nil p)
        · rw [tzPhase_keys data p hp]; decide
      · rw [whenPhase_keys data false _ wq heq p hp]; decide

def c10Data : List (Str × Val) :=
  [("title".data, Val.vstr []),
   ("steps".data, Val.vlist [Val.vstr "Cleanse".data]),
   ("when".data, Val.vdict [("type".data, Val.vstr "weekly".data),
     ("time".data, Val.vstr "07:30".data),
     ("days".data, Val.vlist [Val.vstr "MON".data])])]

open routines_handler in
/-- Witness for C10: an input with an empty title, a valid steps array and a
fully valid weekly schedule is cleaned to data with neither a `when` nor a
`steps` key (here the cleaned data is empty altogether). -/
theorem claim_C10_witness :
    dictLookup [] "when".data = none ∧ dictLookup [] "steps".data = none :=
  ⟨(claim_C10 c10Data [] [titleReqErr] rfl (List.cons_ne_nil _ _)).1
      (fun habs => Val.noConfusion habs),
   (claim_C10 c10Data [] [titleReqErr] rfl (List.cons_ne_nil _ _)).2
      (List.cons_ne_nil _ _) [Val.vstr "Cleanse".data] rfl⟩
